import Mathlib

/-
Verification of the storage miner actor and storage market actor against
their natural-language specification.

The Go source is shallowly embedded: token amounts and epochs (Go big.Int and
int64) become Lean Int, addresses and sector numbers become Nat, bitfields
become lists of Nat, HAMT/AMT tables become association lists, and fallible
actor methods become functions into Except ExitCode.  Helper functions whose
bodies live in files absent from the source tree (miner_state.go, deadline.go,
policy.go, the dline and builtin packages) are modelled from the spec; each
such definition carries a doc comment beginning with the words Modelled from
the spec.
-/

set_option maxRecDepth 10000

/-- Exit codes of actor aborts.  The generic codes are the wire contract of
section 7 of the spec; errBalanceInvariantBroken is the distinguished
actor-specific code declared in the miner actor source. -/
inductive ExitCode where
  | ok
  | sysErrForbidden
  | errIllegalArgument
  | errIllegalState
  | errNotFound
  | errForbidden
  | errInsufficientFunds
  | errSerialization
  | errBalanceInvariantBroken
  deriving DecidableEq, Repr

deriving instance DecidableEq for Except

/-- Numeric value of each exit code on the wire.  The generic values are the
go-state-types constants; ErrBalanceInvariantBroken = 1000 is declared
directly in the miner actor source (the first actor-specific code). -/
def ExitCode.num : ExitCode → Int
  | .ok => 0
  | .sysErrForbidden => 8
  | .errIllegalArgument => 16
  | .errNotFound => 17
  | .errForbidden => 18
  | .errInsufficientFunds => 19
  | .errIllegalState => 20
  | .errSerialization => 21
  | .errBalanceInvariantBroken => 1000

/-- Modelled from the spec: the proving period length P (miner policy.go is
absent from the source tree); the spec gives P = 2880 epochs. -/
def WPoStProvingPeriod : Int := 2880

/-- Modelled from the spec: the number W of deadlines per proving period;
the spec gives W = 48. -/
def WPoStPeriodDeadlines : Nat := 48

/-- Modelled from the spec: the challenge window CW = P/W = 60 epochs. -/
def WPoStChallengeWindow : Int := 60

/-- Modelled from the spec: the lookback from a deadline's open epoch to its
challenge epoch (challenge = open − WPoStChallengeLookback). -/
def WPoStChallengeLookback : Int := 20

/-- Modelled from the spec: the number of epochs after a challenge window
closes during which an optimistically accepted PoSt may be disputed. -/
def WPoStDisputeWindow : Int := 1800

/-- Modelled from the spec: the maximum lookback for pre-commit seal
randomness; the seal randomness epoch must lie in [now − MaxLookback, now). -/
def MaxPreCommitRandomnessLookback : Int := 3780

/-- Modelled from the spec: minimum sector lifetime after activation. -/
def MinSectorExpiration : Int := 180 * 2880

/-- Modelled from the spec: maximum sector expiration measured from the
current epoch. -/
def MaxSectorExpirationExtension : Int := 540 * 2880

/-- Modelled from the spec: the market's deal update interval; a published
deal's first processing epoch falls within one interval of its start epoch. -/
def DealUpdatesInterval : Int := 2880

/-- Modelled from the spec: a quant spec (unit, offset 0) snaps epochs onto a
periodic grid; quantizeDown snaps an epoch down to the nearest grid point
(the greatest multiple of the unit that does not exceed it). -/
def quantizeDown (unit : Int) (e : Int) : Int := unit * (Int.ediv e unit)

/-- Modelled from the spec: quantizeUp snaps an epoch up to the nearest grid
point (the least multiple of the unit not below it). -/
def quantizeUp (unit : Int) (e : Int) : Int :=
  let d := quantizeDown unit e
  if d = e then d else d + unit

/-- Market GenRandNextEpoch: the first processing epoch for a published deal,
pseudorandomised by the deal ID within the update interval of the deal's
start epoch. -/
def GenRandNextEpoch (startEpoch : Int) (dealID : Nat) : Int :=
  let off : Int := (dealID % DealUpdatesInterval.toNat : Nat)
  let prevDay := quantizeDown DealUpdatesInterval startEpoch
  if startEpoch ≤ prevDay + off then prevDay + off
  else quantizeUp DealUpdatesInterval startEpoch + off

/-- The portion of the miner info used by the consensus-fault gate. -/
structure MinerInfoCF where
  ConsensusFaultElapsed : Int
  deriving DecidableEq, Repr

/-- Miner ConsensusFaultActive: consensus faults are active until the current
epoch exceeds ConsensusFaultElapsed. -/
def ConsensusFaultActive (info : MinerInfoCF) (currEpoch : Int) : Bool :=
  currEpoch ≤ info.ConsensusFaultElapsed

/-- The consensus-fault gate shared by PreCommitSectorBatch and
DeclareFaultsRecovered: while a consensus fault is active the method aborts
with ErrForbidden. -/
def consensusFaultGate (info : MinerInfoCF) (currEpoch : Int) : Except ExitCode Unit :=
  if ConsensusFaultActive info currEpoch then .error .errForbidden else .ok ()

/-- Deadline information, as the dline.Info record: the deadline of the given
index in the proving period starting at PeriodStart, viewed at CurrentEpoch.
Modelled from the spec: a deadline d is open on [s + d·CW, s + (d+1)·CW); its
challenge epoch is open − WPoStChallengeLookback; its last epoch is
open + CW − 1 (the dline package is absent from the source tree). -/
structure DlInfo where
  CurrentEpoch : Int
  PeriodStart : Int
  Index : Nat
  deriving DecidableEq, Repr

/-- First epoch of the deadline's challenge window. -/
def DlInfo.Open (d : DlInfo) : Int := d.PeriodStart + d.Index * WPoStChallengeWindow

/-- First epoch after the challenge window. -/
def DlInfo.Close (d : DlInfo) : Int := d.Open + WPoStChallengeWindow

/-- The challenge epoch of the deadline. -/
def DlInfo.Challenge (d : DlInfo) : Int := d.Open - WPoStChallengeLookback

/-- Last epoch of the challenge window. -/
def DlInfo.Last (d : DlInfo) : Int := d.Close - 1

/-- Whether the challenge window is open at the info's current epoch. -/
def DlInfo.IsOpen (d : DlInfo) : Bool :=
  decide (d.Open ≤ d.CurrentEpoch ∧ d.CurrentEpoch < d.Close)

/-- Builds deadline info from a period start, deadline index and epoch. -/
def NewDeadlineInfo (periodStart : Int) (idx : Nat) (currEpoch : Int) : DlInfo :=
  { CurrentEpoch := currEpoch, PeriodStart := periodStart, Index := idx }

/-- Modelled from the spec: the miner state's current deadline information
(miner_state.go is absent from the source tree).  The state records the
proving period start and the current deadline index, which the deadline cron
advances; DeadlineInfo combines them with the current epoch. -/
def stateDeadlineInfo (provingPeriodStart : Int) (currentDeadline : Nat) (currEpoch : Int) : DlInfo :=
  NewDeadlineInfo provingPeriodStart currentDeadline currEpoch

/-- A single windowed PoSt proof: a registered proof type and proof bytes. -/
structure PoStProof where
  PoStType : Nat
  ProofBytes : List Nat
  deriving DecidableEq, Repr

/-- A partition addressed by a windowed PoSt submission: the partition index
and the sectors skipped while proving. -/
structure PoStPartition where
  Index : Nat
  Skipped : List Nat
  deriving DecidableEq, Repr

/-- Parameters of SubmitWindowedPoSt. -/
structure SubmitWindowedPoStParams where
  Deadline : Nat
  Partitions : List PoStPartition
  Proofs : List PoStProof
  ChainCommitEpoch : Int
  ChainCommitRand : List Nat
  deriving DecidableEq, Repr

/-- The runtime and state inputs consumed by the SubmitWindowedPoSt
validation phase.  CanWPoStProofTypes is the set of allowed window PoSt proof
types, MaxProofSize the per-partition proof size bound for the miner's proof
type, and SubmissionPartitionLimit the partition-count bound; all three are
oracles for helpers absent from the source tree.  TicketRand is the chain
ticket randomness oracle. -/
structure SubmitEnv where
  CurrEpoch : Int
  ProvingPeriodStart : Int
  CurrentDeadline : Nat
  Caller : Nat
  ControlAddrs : List Nat
  WindowPoStProofType : Nat
  CanWPoStProofTypes : List Nat
  MaxProofSize : Nat
  SubmissionPartitionLimit : Nat
  TicketRand : Int → List Nat

/-- Wire length of chain randomness. -/
def RandomnessLength : Nat := 32

/-- The validation phase of SubmitWindowedPoSt, up to and including the chain
commit randomness check: every check the method performs before recording the
proven sectors, in source order.  Returns the current deadline info on
success. -/
def SubmitWindowedPoStValidate (env : SubmitEnv) (params : SubmitWindowedPoStParams) :
    Except ExitCode DlInfo :=
  match params.Proofs with
  | [pf] =>
    if pf.PoStType ∉ env.CanWPoStProofTypes then .error .errIllegalArgument
    else if params.Deadline ≥ WPoStPeriodDeadlines then .error .errIllegalArgument
    else if params.ChainCommitRand.length > RandomnessLength then .error .errIllegalArgument
    else if env.Caller ∉ env.ControlAddrs then .error .sysErrForbidden
    else if pf.PoStType ≠ env.WindowPoStProofType then .error .errIllegalArgument
    else if pf.ProofBytes.length > env.MaxProofSize * params.Partitions.length then
      .error .errIllegalArgument
    else if params.Partitions.length > env.SubmissionPartitionLimit then .error .errIllegalArgument
    else
      let currDeadline := stateDeadlineInfo env.ProvingPeriodStart env.CurrentDeadline env.CurrEpoch
      if ¬ currDeadline.IsOpen then .error .errIllegalState
      else if params.Deadline ≠ currDeadline.Index then .error .errIllegalArgument
      else if params.ChainCommitEpoch < currDeadline.Challenge then .error .errIllegalArgument
      else if params.ChainCommitEpoch ≥ env.CurrEpoch then .error .errIllegalArgument
      else if env.TicketRand params.ChainCommitEpoch ≠ params.ChainCommitRand then
        .error .errIllegalArgument
      else .ok currDeadline
  | _ => .error .errIllegalArgument

/-- A raw/quality-adjusted power pair. -/
structure PowerPair where
  Raw : Int
  QA : Int
  deriving DecidableEq, Repr

/-- Whether both components of a power pair are zero. -/
def PowerPair.IsZero (p : PowerPair) : Bool := p.Raw = 0 && p.QA = 0

/-- Componentwise sum of power pairs. -/
def PowerPair.add (p q : PowerPair) : PowerPair := ⟨p.Raw + q.Raw, p.QA + q.QA⟩

/-- Sum of the powers of a list of sectors, given per-sector power. -/
def powerOfSectors (spower : Nat → PowerPair) (xs : List Nat) : PowerPair :=
  xs.foldr (fun s acc => (spower s).add acc) ⟨0, 0⟩

/-- A partition of a deadline: its sector set and the faulty, recovering and
unproven subsets, as bitfields of sector numbers. -/
structure Partition where
  Sectors : List Nat
  Faults : List Nat
  Recoveries : List Nat
  Unproven : List Nat
  deriving DecidableEq, Repr

/-- Modelled from the spec: marking declared skipped sectors as faults (if
not already faulty) and retracting the recovery of any skipped recovering
sector (partition.go is absent from the source tree). -/
def recordSkippedFaults (p : Partition) (skipped : List Nat) : Partition :=
  { p with
    Faults := p.Faults.union (p.Sectors.inter skipped)
    Recoveries := p.Recoveries.diff skipped }

/-- Modelled from the spec: a successful proof recovers the partition's
declared (and not skipped) recovering sectors, restoring their power
(partition.go is absent from the source tree). -/
def recoverFaults (spower : Nat → PowerPair) (p : Partition) : Partition × PowerPair :=
  ({ p with Faults := p.Faults.diff p.Recoveries, Recoveries := [] },
   powerOfSectors spower p.Recoveries)

/-- The result of recording proven sectors, as the PoStResult record:
addressed partition indices, all their sectors, the ignored (still faulty)
sectors, and the power restored to recovered sectors. -/
structure PoStResultM where
  Partitions : List Nat
  Sectors : List Nat
  IgnoredSectors : List Nat
  RecoveredPower : PowerPair
  deriving DecidableEq, Repr

/-- Modelled from the spec: Deadline.RecordProvenSectors (deadline.go is
absent from the source tree).  For each declared partition: mark the declared
skipped sectors as faults, recover the remaining declared recoveries, clear
the unproven set; accumulate the partition's sectors, its still-ignored
(faulty) sectors, and the recovered power. -/
def recordProvenSectors (spower : Nat → PowerPair) (parts : List Partition)
    (decls : List PoStPartition) : Except ExitCode (List Partition × PoStResultM) :=
  decls.foldlM
    (fun (acc : List Partition × PoStResultM) decl =>
      match acc.1.get? decl.Index with
      | none => .error .errNotFound
      | some p =>
        let p1 := recordSkippedFaults p decl.Skipped
        let p2 := (recoverFaults spower p1).1
        let recPow := (recoverFaults spower p1).2
        let p3 := { p2 with Unproven := ([] : List Nat) }
        .ok (acc.1.set decl.Index p3,
             { Partitions := acc.2.Partitions ++ [decl.Index]
               Sectors := acc.2.Sectors.union p.Sectors
               IgnoredSectors := acc.2.IgnoredSectors.union p3.Faults
               RecoveredPower := acc.2.RecoveredPower.add recPow }))
    (parts, ⟨[], [], [], ⟨0, 0⟩⟩)

/-- A deadline, restricted to the fields the PoSt path touches: its
partitions and the optimistic PoSt snapshot (submitted partition bitfields
with their proofs, held for the dispute window). -/
structure DeadlineM where
  Partitions : List Partition
  OptimisticPoStSubmissions : List (List Nat × List PoStProof)
  deriving DecidableEq, Repr

/-- Whether any partition of the deadline has declared recoveries pending. -/
def hasDeclaredRecoveries (dl : DeadlineM) : Bool :=
  dl.Partitions.any (fun p => ¬ p.Recoveries.isEmpty)

/-- The proof-recording phase of SubmitWindowedPoSt, after validation:
record proven sectors; abort if nothing remains proven; then either snapshot
the proof for optimistic verification (when no power was recovered) or verify
it immediately (verifyOk is the verification oracle's outcome), aborting on
verification failure. -/
def SubmitWindowedPoStRecord (spower : Nat → PowerPair) (dl : DeadlineM)
    (decls : List PoStPartition) (proofs : List PoStProof) (verifyOk : Bool) :
    Except ExitCode DeadlineM :=
  match recordProvenSectors spower dl.Partitions decls with
  | .error e => .error e
  | .ok pr =>
    let parts := pr.1
    let postResult := pr.2
    let provenSectors := postResult.Sectors.diff postResult.IgnoredSectors
    if provenSectors.isEmpty then .error .errIllegalArgument
    else if postResult.RecoveredPower.IsZero then
      .ok { Partitions := parts
            OptimisticPoStSubmissions :=
              dl.OptimisticPoStSubmissions ++ [(postResult.Partitions, proofs)] }
    else if verifyOk then
      .ok { Partitions := parts, OptimisticPoStSubmissions := dl.OptimisticPoStSubmissions }
    else .error .errIllegalArgument

/-- A vesting table entry: funds locked until the given epoch. -/
structure VestingFund where
  Epoch : Int
  Amount : Int
  deriving DecidableEq, Repr

/-- The funds-related portion of the miner state. -/
structure MinerState where
  PreCommitDeposits : Int
  LockedFunds : Int
  VestingFunds : List VestingFund
  FeeDebt : Int
  InitialPledge : Int
  EarlyTerminations : List Nat
  deriving DecidableEq, Repr

/-- Modelled from the spec: the balance invariant verified at every message
boundary, balance ≥ pre-commit deposits + initial pledge + locked funds
(miner_state.go is absent from the source tree). -/
def CheckBalanceInvariants (st : MinerState) (balance : Int) : Bool :=
  decide (st.PreCommitDeposits + st.InitialPledge + st.LockedFunds ≤ balance)

/-- The epilogue every state-mutating miner method runs: re-check the balance
invariant and abort with the distinguished ErrBalanceInvariantBroken code on
violation. -/
def balanceInvariantGate (st : MinerState) (balance : Int) : Except ExitCode Unit :=
  if CheckBalanceInvariants st balance then .ok () else .error .errBalanceInvariantBroken

/-- Modelled from the spec: vesting entries matured at the current epoch
release to unlocked balance; returns the newly vested amount and the updated
state (miner_state.go is absent from the source tree). -/
def UnlockVestedFunds (st : MinerState) (now : Int) : Int × MinerState :=
  let vested := ((st.VestingFunds.filter (fun v => v.Epoch ≤ now)).map VestingFund.Amount).sum
  (vested,
   { st with
     VestingFunds := st.VestingFunds.filter (fun v => ¬ v.Epoch ≤ now)
     LockedFunds := st.LockedFunds - vested })

/-- Modelled from the spec: unlocked balance is the actor balance minus
locked funds, pre-commit deposits and initial pledge. -/
def GetUnlockedBalance (st : MinerState) (balance : Int) : Int :=
  balance - st.LockedFunds - st.PreCommitDeposits - st.InitialPledge

/-- Modelled from the spec: available balance is the unlocked balance minus
fee debt. -/
def GetAvailableBalance (st : MinerState) (balance : Int) : Int :=
  GetUnlockedBalance st balance - st.FeeDebt

/-- Modelled from the spec: repay all fee debt now or abort with
ErrInsufficientFunds when the unlocked balance cannot cover it; returns the
amount to burn (miner_state.go is absent from the source tree). -/
def RepayDebtsOrAbort (st : MinerState) (balance : Int) : Except ExitCode (Int × MinerState) :=
  if GetUnlockedBalance st balance < st.FeeDebt then .error .errInsufficientFunds
  else .ok (st.FeeDebt, { st with FeeDebt := 0 })

/-- ApplyPenalty adds a (non-negative) penalty to the fee debt. -/
def ApplyPenalty (st : MinerState) (penalty : Int) : Except ExitCode MinerState :=
  if penalty < 0 then .error .errIllegalState
  else .ok { st with FeeDebt := st.FeeDebt + penalty }

/-- Deducts an amount from the front of the vesting table. -/
def deductFromVesting : List VestingFund → Int → List VestingFund
  | [], _ => []
  | v :: rest, amt =>
    if amt ≤ 0 then v :: rest
    else if v.Amount ≤ amt then deductFromVesting rest (amt - v.Amount)
    else { v with Amount := v.Amount - amt } :: rest

/-- Modelled from the spec: fee debt is repaid from vesting funds first, then
from the unlocked balance, returning the two parts separately (only the
vesting part reduces pledge); repayment may be incomplete when funds do not cover
the debt (miner_state.go is absent from the source tree). -/
def RepayPartialDebtInPriorityOrder (st : MinerState) (balance : Int) :
    Int × Int × MinerState :=
  let fromVesting := min st.FeeDebt st.LockedFunds
  let st1 := { st with
               LockedFunds := st.LockedFunds - fromVesting
               VestingFunds := deductFromVesting st.VestingFunds fromVesting
               FeeDebt := st.FeeDebt - fromVesting }
  let fromBalance := min st1.FeeDebt (max (GetUnlockedBalance st1 balance) 0)
  (fromVesting, fromBalance, { st1 with FeeDebt := st1.FeeDebt - fromBalance })

/-- The successful result of WithdrawBalance: the amount sent, its recipient,
and the post state and balance. -/
structure WithdrawResult where
  AmountWithdrawn : Int
  Recipient : Nat
  St : MinerState
  Balance : Int
  deriving DecidableEq, Repr

/-- Miner WithdrawBalance: reject a negative request; only the owner may
call; forbidden while any early termination is pending; unlock vested funds,
compute the available balance, repay fee debt (or abort), then send
min(available, requested) to the owner, burn the repaid debt, and re-check
the balance invariant. -/
def WithdrawBalance (st0 : MinerState) (balance : Int) (caller owner : Nat)
    (amountRequested : Int) (now : Int) : Except ExitCode WithdrawResult :=
  if amountRequested < 0 then .error .errIllegalArgument
  else if caller ≠ owner then .error .sysErrForbidden
  else if ¬ st0.EarlyTerminations.isEmpty then .error .errForbidden
  else
    let st1 := (UnlockVestedFunds st0 now).2
    let availableBalance := GetAvailableBalance st1 balance
    match RepayDebtsOrAbort st1 balance with
    | .error e => .error e
    | .ok fb =>
      let feeToBurn := fb.1
      let st2 := fb.2
      let amountWithdrawn := min availableBalance amountRequested
      if amountWithdrawn < 0 then .error .errIllegalState
      else if availableBalance < amountWithdrawn then .error .errIllegalState
      else
        let balAfterSend := balance - amountWithdrawn
        let balAfterBurn := balAfterSend - feeToBurn
        match balanceInvariantGate st2 balAfterBurn with
        | .error e => .error e
        | .ok _ =>
          .ok { AmountWithdrawn := amountWithdrawn, Recipient := owner
                St := st2, Balance := balAfterBurn }

/-- Modelled from the spec: an optimistic PoSt may be disputed within
WPoStDisputeWindow epochs after the challenge window of the target deadline
closes, and never before the proving period has started or while the window
has not yet closed (deadlines.go is absent from the source tree). -/
def deadlineAvailableForOptimisticPoStDispute (provingPeriodStart : Int) (dlIdx : Nat)
    (currEpoch : Int) : Bool :=
  if provingPeriodStart > currEpoch then false
  else
    let dl := NewDeadlineInfo provingPeriodStart dlIdx currEpoch
    let targetClose := if dl.Close ≤ currEpoch then dl.Close else dl.Close - WPoStProvingPeriod
    decide (targetClose ≤ currEpoch ∧ currEpoch < targetClose + WPoStDisputeWindow)

/-- Modelled from the spec: Deadline.RecordFaults for a dispute marks the
disputed sectors of a partition as faults; sectors no longer in the partition
(terminated) are skipped (deadline.go is absent from the source tree). -/
def recordFaultsPartition (p : Partition) (disputed : List Nat) : Partition :=
  { p with Faults := p.Faults.union (p.Sectors.inter disputed) }

/-- The runtime and oracle inputs of DisputeWindowedPoSt: the current epoch
and deadline position, the base invalid-PoSt penalty for the disputed power
(an external fee function) and the dispute reward target. -/
structure DisputeEnv where
  CurrEpoch : Int
  ProvingPeriodStart : Int
  CurrentDeadline : Nat
  PenaltyBase : Int
  RewardTarget : Int
  deriving DecidableEq, Repr

/-- The successful outcome of DisputeWindowedPoSt: updated partitions, the
penalty target applied, the amounts burned and sent to the reporter, the
pledge delta, and the post state. -/
structure DisputeOutcome where
  Partitions : List Partition
  PenaltyTarget : Int
  ToBurn : Int
  ToReward : Int
  PledgeDelta : Int
  St : MinerState
  deriving DecidableEq, Repr

/-- Miner DisputeWindowedPoSt: within the dispute window, re-verify the
snapshotted proof (verifyOk is the verification oracle's outcome).  If it
verifies, the dispute fails with an abort.  If it does not, the disputed
sectors become faults, the penalty target (base penalty plus reward target)
is applied to fee debt and repaid in priority order, and the reporter is sent
the smaller of the repaid amount and the reward target, the rest burned. -/
def DisputeWindowedPoSt (env : DisputeEnv) (st : MinerState) (balance : Int)
    (dlParts : List Partition) (disputedSectors : List Nat) (verifyOk : Bool)
    (paramsDeadline : Nat) : Except ExitCode DisputeOutcome :=
  if paramsDeadline ≥ WPoStPeriodDeadlines then .error .errIllegalArgument
  else if ¬ deadlineAvailableForOptimisticPoStDispute env.ProvingPeriodStart paramsDeadline
      env.CurrEpoch then .error .errForbidden
  else if verifyOk then .error .errIllegalArgument
  else
    let parts := dlParts.map (fun p => recordFaultsPartition p disputedSectors)
    let penaltyTarget := env.PenaltyBase + env.RewardTarget
    match ApplyPenalty st penaltyTarget with
    | .error e => .error e
    | .ok st1 =>
      let fromVesting := (RepayPartialDebtInPriorityOrder st1 balance).1
      let fromBalance := (RepayPartialDebtInPriorityOrder st1 balance).2.1
      let st2 := (RepayPartialDebtInPriorityOrder st1 balance).2.2
      let toBurn := fromVesting + fromBalance
      let toReward := min toBurn env.RewardTarget
      let toBurnRest := toBurn - toReward
      .ok { Partitions := parts, PenaltyTarget := penaltyTarget, ToBurn := toBurnRest
            ToReward := toReward, PledgeDelta := -fromVesting, St := st2 }

/-- Largest legal sector number (2^63 − 1). -/
def MaxSectorNumber : Nat := 2 ^ 63 - 1

/-- Modelled from the spec: the maximum batch size of PreCommitSectorBatch
(miner policy.go is absent from the source tree). -/
def PreCommitSectorBatchMaxSize : Nat := 256

/-- The fields of a sector pre-commitment consumed by validation.  The two
CID checks (defined, correct header) are kept as oracles since CIDs are
external. -/
structure SectorPreCommitInfo where
  SealProof : Nat
  SectorNumber : Nat
  SealedCIDDefined : Bool
  SealedCIDPrefixOk : Bool
  SealRandEpoch : Int
  DealIDs : List Nat
  Expiration : Int
  ReplaceCapacity : Bool
  deriving DecidableEq, Repr

/-- Miner validateExpiration: expiration after activation, minimum lifetime,
bounded extension from now, and bounded total lifetime for the seal proof
(whose maximum is an external oracle; an unknown proof aborts). -/
def validateExpiration (currEpoch activation expiration : Int) (maxLifetime : Option Int) :
    Except ExitCode Unit :=
  if expiration ≤ activation then .error .errIllegalArgument
  else if expiration - activation < MinSectorExpiration then .error .errIllegalArgument
  else if expiration > currEpoch + MaxSectorExpirationExtension then .error .errIllegalArgument
  else
    match maxLifetime with
    | none => .error .errIllegalArgument
    | some maxL =>
      if expiration - activation > maxL then .error .errIllegalArgument
      else .ok ()

/-- The policy oracles consumed by pre-commit validation: the supported seal
proof types, the per-proof maximum prove-commit duration (a possibly-missing map, as
in the source), and the per-proof maximum sector lifetime. -/
structure PreCommitEnv where
  CurrEpoch : Int
  CanPreCommitSealProofs : List Nat
  MaxProveCommitDurationOf : Nat → Option Int
  SealProofMaxLifetimeOf : Nat → Option Int

/-- The per-sector validation of PreCommitSectorBatch, in source order:
supported seal proof, sector number in range, sealed CID defined and with the
right header, seal randomness epoch in [now − MaxLookback, now), expiration
window checks, and no capacity replacement. -/
def validatePreCommitSector (env : PreCommitEnv) (pc : SectorPreCommitInfo) :
    Except ExitCode Unit :=
  let challengeEarliest := env.CurrEpoch - MaxPreCommitRandomnessLookback
  if pc.SealProof ∉ env.CanPreCommitSealProofs then .error .errIllegalArgument
  else if pc.SectorNumber > MaxSectorNumber then .error .errIllegalArgument
  else if ¬ pc.SealedCIDDefined then .error .errIllegalArgument
  else if ¬ pc.SealedCIDPrefixOk then .error .errIllegalArgument
  else if pc.SealRandEpoch ≥ env.CurrEpoch then .error .errIllegalArgument
  else if pc.SealRandEpoch < challengeEarliest then .error .errIllegalArgument
  else
    let maxActivation := env.CurrEpoch + (env.MaxProveCommitDurationOf pc.SealProof).getD 0
    match validateExpiration env.CurrEpoch maxActivation pc.Expiration
        (env.SealProofMaxLifetimeOf pc.SealProof) with
    | .error e => .error e
    | .ok _ => if pc.ReplaceCapacity then .error .sysErrForbidden else .ok ()

/-- The batch-level validation loop of PreCommitSectorBatch: batch non-empty
and within the maximum size, then each sector checked for a duplicate sector
number before its per-sector validation. -/
def validatePreCommitBatch (env : PreCommitEnv) (sectors : List SectorPreCommitInfo) :
    Except ExitCode Unit :=
  if sectors.length = 0 then .error .errIllegalArgument
  else if sectors.length > PreCommitSectorBatchMaxSize then .error .errIllegalArgument
  else
    (sectors.foldlM
      (fun (seen : List Nat) (pc : SectorPreCommitInfo) =>
        if pc.SectorNumber ∈ seen then (.error .errIllegalArgument : Except ExitCode (List Nat))
        else
          match validatePreCommitSector env pc with
          | .error e => .error e
          | .ok _ => .ok (seen ++ [pc.SectorNumber]))
      ([] : List Nat)).map (fun _ => ())

/-- The state-transaction prologue of PreCommitSectorBatch, through the
consensus-fault gate: apply the aggregate network fee as a penalty when
batching, take the available balance, repay fee debt or abort, validate the
caller, and forbid the method during an active consensus fault.  Returns the
available balance, the fee to burn, and the updated state. -/
def PreCommitSectorBatchPrologue (st : MinerState) (balance : Int) (batchSize : Nat)
    (aggregateFee : Int) (caller : Nat) (controls : List Nat) (cfInfo : MinerInfoCF)
    (currEpoch : Int) : Except ExitCode (Int × Int × MinerState) := do
  let st1 ← if batchSize > 1 then ApplyPenalty st aggregateFee else .ok st
  let availableBalance := GetAvailableBalance st1 balance
  match RepayDebtsOrAbort st1 balance with
  | .error e => .error e
  | .ok fb =>
    if caller ∉ controls then .error .sysErrForbidden
    else if ConsensusFaultActive cfInfo currEpoch then .error .errForbidden
    else .ok (availableBalance, fb.1, fb.2)

/-- The prologue of DeclareFaultsRecovered, through the consensus-fault gate:
bound the number of declarations and the partitions and sectors they address,
repay fee debt or abort, validate the caller, and forbid recovery during an
active consensus fault. -/
def DeclareFaultsRecoveredPrologue (st : MinerState) (balance : Int)
    (declCount addressedPartitions addressedSectors : Nat)
    (declarationsMax partitionsMax sectorsMax : Nat)
    (caller : Nat) (controls : List Nat) (cfInfo : MinerInfoCF) (currEpoch : Int) :
    Except ExitCode (Int × MinerState) :=
  if declCount > declarationsMax then .error .errIllegalArgument
  else if addressedPartitions > partitionsMax ∨ addressedSectors > sectorsMax then
    .error .errIllegalArgument
  else
    match RepayDebtsOrAbort st balance with
    | .error e => .error e
    | .ok fb =>
      if caller ∉ controls then .error .sysErrForbidden
      else if ConsensusFaultActive cfInfo currEpoch then .error .errForbidden
      else .ok (fb.1, fb.2)

/-- The market state as seen by CronTick: the last cron epoch, the
deals-by-epoch multimap (a keyed association list, as the set-multimap), and
the rest of the state (deal proposals, deal states, escrow and locked tables,
pending proposals), over which per-deal processing acts. -/
structure MarketCronState (σ : Type) where
  LastCron : Int
  DealsByEpoch : List (Int × List Nat)
  Aux : σ
  deriving DecidableEq

/-- The deal IDs scheduled at one epoch of the deals-by-epoch multimap. -/
def dealsAt (dbe : List (Int × List Nat)) (i : Int) : List Nat :=
  (dbe.filter (fun p => p.1 = i)).flatMap Prod.snd

/-- Removing every deal scheduled at one epoch (SetMultimap.RemoveAll). -/
def removeAllAt (dbe : List (Int × List Nat)) (i : Int) : List (Int × List Nat) :=
  dbe.filter (fun p => p.1 ≠ i)

/-- The consecutive epochs in the half-open interval (lastCron, now], in
order: the epochs CronTick processes. -/
def epochsInRange (lastCron now : Int) : List Int :=
  (List.range (now - lastCron).toNat).map (fun k : Nat => lastCron + 1 + (k : Int))

/-- One epoch's deal processing inside CronTick: fold the per-deal step over
the deal IDs scheduled at the epoch, collecting reschedule requests; a
reschedule not strictly after the current epoch is the assertion failure the
source guards with RequireState. -/
def processEpochDeals {σ : Type} (step : Int → σ → Nat → Except ExitCode (σ × Option Int))
    (now : Int) (aux : σ) (ids : List Nat) (upd : List (Int × Nat)) :
    Except ExitCode (σ × List (Int × Nat)) :=
  ids.foldlM
    (fun (acc : σ × List (Int × Nat)) dealID =>
      match step now acc.1 dealID with
      | .error e => .error e
      | .ok an =>
        match an.2 with
        | none => .ok (an.1, acc.2)
        | some nextEpoch =>
          if nextEpoch ≤ now then .error .errIllegalState
          else .ok (an.1, acc.2 ++ [(nextEpoch, dealID)]))
    (aux, upd)

/-- Inserting an epoch into a sorted list of epochs. -/
def insertSorted (x : Int) : List Int → List Int
  | [] => [x]
  | y :: ys => if x ≤ y then x :: y :: ys else y :: insertSorted x ys

/-- The deterministic ascending sort of the changed epochs (the source sorts
them before re-inserting so iteration order is deterministic). -/
def sortEpochs (l : List Int) : List Int := l.foldr insertSorted []

/-- The deal IDs rescheduled to one epoch, in processing order. -/
def updatesFor (upd : List (Int × Nat)) (e : Int) : List Nat :=
  upd.filterMap (fun p => if p.1 = e then some p.2 else none)

/-- One epoch of the CronTick loop body: process the deals scheduled at the
epoch, then remove them from the deals-by-epoch index. -/
def cronEpochStep {σ : Type} (step : Int → σ → Nat → Except ExitCode (σ × Option Int))
    (now : Int) (acc : σ × List (Int × Nat) × List (Int × List Nat)) (i : Int) :
    Except ExitCode (σ × List (Int × Nat) × List (Int × List Nat)) :=
  match processEpochDeals step now acc.1 (dealsAt acc.2.2 i) acc.2.1 with
  | .error e => .error e
  | .ok au => .ok (au.1, au.2, removeAllAt acc.2.2 i)

/-- Market CronTick as a state transition, parametric in the per-deal
processing step (deal settlement, slashing and timeout handling act only on
the Aux component and yield an optional reschedule epoch).  It iterates the
epochs in (lastCron, now]: processes and then removes every deal scheduled at
each, re-inserts rescheduled deals grouped by their (sorted) future epochs,
and finally sets lastCron to the current epoch. -/
def CronTick {σ : Type} (step : Int → σ → Nat → Except ExitCode (σ × Option Int))
    (now : Int) (st : MarketCronState σ) : Except ExitCode (MarketCronState σ) :=
  match (epochsInRange st.LastCron now).foldlM (cronEpochStep step now)
      (st.Aux, ([] : List (Int × Nat)), st.DealsByEpoch) with
  | .error e => .error e
  | .ok aud =>
    let upd := aud.2.1
    let changedEpochs := sortEpochs (upd.map Prod.fst).dedup
    let dbeOut := aud.2.2 ++ changedEpochs.map (fun e => (e, updatesFor upd e))
    .ok { LastCron := now, DealsByEpoch := dbeOut, Aux := aud.1 }

/-- The fields of a published deal proposal consumed by the publish path: the
start epoch (which fixes the first processing epoch), the client's balance
requirement and the provider collateral (which are locked), and the proposal
CID (kept as an abstract key for the pending-proposals set). -/
structure DealP where
  StartEpoch : Int
  ClientLockup : Int
  ProviderCollateral : Int
  ProposalCid : Nat
  deriving DecidableEq, Repr

/-- The market state touched by PublishStorageDeals: the next deal ID, the
proposal table, the pending-proposals set, the deals-by-epoch index, and the
totals locked for clients and providers. -/
structure MarketPubState where
  NextID : Nat
  Proposals : List (Nat × DealP)
  PendingProposals : List Nat
  DealsByEpoch : List (Int × Nat)
  TotalClientLocked : Int
  TotalProviderLocked : Int
  deriving DecidableEq, Repr

/-- The validation loop of PublishStorageDeals: each input deal is checked in
order and dropped (not aborted) when invalid; validity of a deal may depend
on the previously accepted deals (cumulative client and provider lockups and
in-batch duplicate proposals), so the check oracle receives the indices
accepted so far.  Returns the accepted input indices in order. -/
def collectValidIndices (check : Nat → List Nat → Bool) (n : Nat) : List Nat :=
  (List.range n).foldl (fun acc i => if check i acc then acc ++ [i] else acc) []

/-- The return value of PublishStorageDeals: the assigned deal IDs and the
bitfield of valid input indices. -/
structure PublishStorageDealsRet where
  IDs : List Nat
  ValidDeals : List Nat
  deriving DecidableEq, Repr

/-- Persisting one valid deal inside the publish transaction: lock the client
and provider balances, draw the next deal ID, add the proposal to the pending
set and the proposal table, and schedule its first processing epoch. -/
def publishOneDeal (acc : MarketPubState × List Nat) (d : DealP) : MarketPubState × List Nat :=
  let s := acc.1
  let ids := acc.2
  let id := s.NextID
  ({ NextID := id + 1
     Proposals := s.Proposals ++ [(id, d)]
     PendingProposals := s.PendingProposals ++ [d.ProposalCid]
     DealsByEpoch := s.DealsByEpoch ++ [(GenRandNextEpoch d.StartEpoch id, id)]
     TotalClientLocked := s.TotalClientLocked + d.ClientLockup
     TotalProviderLocked := s.TotalProviderLocked + d.ProviderCollateral },
   ids ++ [id])

/-- Market PublishStorageDeals: drop invalid deals individually during
validation; if every deal is invalid abort with ErrIllegalArgument before the
state transaction (so nothing is persisted, locked or allocated); otherwise
persist exactly the valid deals in order, assigning consecutive deal IDs, and
return the IDs with the valid-input bitfield. -/
def PublishStorageDeals (check : Nat → List Nat → Bool) (deals : List DealP)
    (st : MarketPubState) : Except ExitCode (PublishStorageDealsRet × MarketPubState) :=
  let valid := collectValidIndices check deals.length
  if valid.isEmpty then .error .errIllegalArgument
  else
    let chosen := valid.filterMap (fun i => deals.get? i)
    let out := chosen.foldl publishOneDeal (st, [])
    .ok ({ IDs := out.2, ValidDeals := valid }, out.1)

/-- C6: in PreCommitSectorBatch the seal randomness epoch of each sector must
lie in [now − MaxPreCommitRandomnessLookback, now): with every other
validation passing, a pre-commit with SealRandEpoch equal to the current
epoch is rejected with ErrIllegalArgument, one with SealRandEpoch equal to
the current epoch minus one is accepted, and one older than the lookback
bound is rejected with ErrIllegalArgument. -/
theorem C6_precommit_seal_rand_epoch (env : PreCommitEnv) (pc : SectorPreCommitInfo)
    (h1 : pc.SealProof ∈ env.CanPreCommitSealProofs)
    (h2 : pc.SectorNumber ≤ MaxSectorNumber)
    (h3 : pc.SealedCIDDefined = true)
    (h4 : pc.SealedCIDPrefixOk = true)
    (h5 : validateExpiration env.CurrEpoch
        (env.CurrEpoch + (env.MaxProveCommitDurationOf pc.SealProof).getD 0) pc.Expiration
        (env.SealProofMaxLifetimeOf pc.SealProof) = .ok ())
    (h6 : pc.ReplaceCapacity = false) :
    (validatePreCommitSector env pc = .ok () ↔
      env.CurrEpoch - MaxPreCommitRandomnessLookback ≤ pc.SealRandEpoch ∧
      pc.SealRandEpoch < env.CurrEpoch) ∧
    (pc.SealRandEpoch = env.CurrEpoch →
      validatePreCommitSector env pc = .error .errIllegalArgument) ∧
    (pc.SealRandEpoch = env.CurrEpoch - 1 → validatePreCommitSector env pc = .ok ()) ∧
    (pc.SealRandEpoch < env.CurrEpoch - MaxPreCommitRandomnessLookback →
      validatePreCommitSector env pc = .error .errIllegalArgument) := by
  unfold validatePreCommitSector
  simp only [h1, h2, h3, h4, h5, h6]
  simp only [MaxPreCommitRandomnessLookback]
  split_ifs with hA hB hC <;> simp_all <;> omega

/-- C9 (amended): the first processing epoch assigned to a published deal is
the unique epoch of the half-open interval [start, start+DealUpdatesInterval)
congruent to the deal ID modulo DealUpdatesInterval: quantize-down of the
start plus the offset when that does not precede the start, else quantize-up
of the start plus the offset; in particular it lies within the
DealUpdatesInterval-long period starting at the deal's start epoch. -/
theorem C9_processing_epoch (startEpoch : Int) (dealID : Nat) :
    startEpoch ≤ GenRandNextEpoch startEpoch dealID ∧
    GenRandNextEpoch startEpoch dealID < startEpoch + DealUpdatesInterval ∧
    GenRandNextEpoch startEpoch dealID % DealUpdatesInterval =
      (dealID : Int) % DealUpdatesInterval := by
  have ht : ((2880 : Int)).toNat = 2880 := rfl
  have e1 : (2880 : Int) * (startEpoch.ediv 2880) + startEpoch.emod 2880 = startEpoch :=
    Int.ediv_add_emod _ _
  have e2 : 0 ≤ startEpoch.emod 2880 := Int.emod_nonneg _ (by norm_num)
  have e3 : startEpoch.emod 2880 < 2880 := Int.emod_lt_of_pos _ (by norm_num)
  have hcast : ((dealID % 2880 : Nat) : Int) = (dealID : Int) % 2880 := by push_cast; rfl
  refine ⟨?_, ?_, ?_⟩
  · simp only [GenRandNextEpoch, quantizeUp, quantizeDown, DealUpdatesInterval, ht]
    split_ifs with hA hB <;> omega
  · simp only [GenRandNextEpoch, quantizeUp, quantizeDown, DealUpdatesInterval, ht]
    split_ifs with hA hB <;> omega
  · simp only [GenRandNextEpoch, quantizeUp, quantizeDown, DealUpdatesInterval, ht]
    split_ifs with hA hB
    · rw [add_comm, Int.add_mul_emod_self_left, hcast, Int.emod_emod_of_dvd _ dvd_rfl]
    · exfalso; omega
    · have hr : (2880 : Int) * startEpoch.ediv 2880 + 2880 + ((dealID % 2880 : Nat) : Int) =
          ((dealID % 2880 : Nat) : Int) + 2880 * (startEpoch.ediv 2880 + 1) := by ring
      rw [hr, Int.add_mul_emod_self_left, hcast, Int.emod_emod_of_dvd _ dvd_rfl]

/-- Shape of every successful WithdrawBalance invocation: the caller is the
owner, no early termination is pending, and the result carries exactly the
withdrawn min(available, requested), the post state with fee debt cleared,
and a post balance satisfying the balance invariant. -/
theorem WithdrawBalance_ok_shape (st0 : MinerState) (balance : Int) (caller owner : Nat)
    (amountRequested now : Int) (r : WithdrawResult)
    (h : WithdrawBalance st0 balance caller owner amountRequested now = .ok r) :
    caller = owner ∧ st0.EarlyTerminations.isEmpty = true ∧
    r.AmountWithdrawn =
      min (GetAvailableBalance (UnlockVestedFunds st0 now).2 balance) amountRequested ∧
    r.Recipient = owner ∧
    r.St = { (UnlockVestedFunds st0 now).2 with FeeDebt := 0 } ∧
    r.Balance = balance - r.AmountWithdrawn - (UnlockVestedFunds st0 now).2.FeeDebt ∧
    CheckBalanceInvariants r.St r.Balance = true := by
  unfold WithdrawBalance at h
  by_cases hreq : amountRequested < 0
  · rw [if_pos hreq] at h; exact absurd h (by simp)
  rw [if_neg hreq] at h
  by_cases hco : caller = owner
  swap
  · rw [if_pos (by simp [hco])] at h; exact absurd h (by simp)
  rw [if_neg (by simp [hco])] at h
  by_cases het : st0.EarlyTerminations.isEmpty
  swap
  · rw [if_pos (by simpa using het)] at h; exact absurd h (by simp)
  rw [if_neg (by simpa using het)] at h
  simp only [RepayDebtsOrAbort] at h
  set st1 : MinerState := (UnlockVestedFunds st0 now).2 with hst1def
  by_cases hrd : GetUnlockedBalance st1 balance < st1.FeeDebt
  · rw [if_pos hrd] at h; exact absurd h (by simp)
  rw [if_neg hrd] at h
  dsimp only [] at h
  by_cases hw1 : min (GetAvailableBalance st1 balance) amountRequested < 0
  · rw [if_pos hw1] at h; exact absurd h (by simp)
  rw [if_neg hw1] at h
  by_cases hw2 : GetAvailableBalance st1 balance < min (GetAvailableBalance st1 balance) amountRequested
  · rw [if_pos hw2] at h; exact absurd h (by simp)
  rw [if_neg hw2] at h
  simp only [balanceInvariantGate] at h
  by_cases hg : CheckBalanceInvariants { st1 with FeeDebt := 0 }
      (balance - min (GetAvailableBalance st1 balance) amountRequested - st1.FeeDebt) = true
  swap
  · rw [if_neg hg] at h; exact absurd h (by simp)
  rw [if_pos hg] at h
  dsimp only [] at h
  rw [Except.ok.injEq] at h
  subst h
  exact ⟨hco, het, rfl, rfl, rfl, rfl, hg⟩

/-- C2: for every non-negative requested amount, WithdrawBalance is callable
only by the owner (any other caller aborts), aborts with ErrForbidden
whenever the early-terminations bitfield is non-empty, and on success sends
exactly min(available balance, requested) to the owner with the fee debt
fully repaid (and burned from the balance). -/
theorem C2_withdraw_balance (st0 : MinerState) (balance : Int) (caller owner : Nat)
    (amountRequested now : Int) (hreq : 0 ≤ amountRequested) :
    (caller ≠ owner →
      WithdrawBalance st0 balance caller owner amountRequested now = .error .sysErrForbidden) ∧
    (caller = owner → st0.EarlyTerminations ≠ [] →
      WithdrawBalance st0 balance caller owner amountRequested now = .error .errForbidden) ∧
    (∀ r, WithdrawBalance st0 balance caller owner amountRequested now = .ok r →
      r.AmountWithdrawn =
        min (GetAvailableBalance (UnlockVestedFunds st0 now).2 balance) amountRequested ∧
      r.Recipient = owner ∧
      r.St.FeeDebt = 0 ∧
      r.Balance = balance - r.AmountWithdrawn - (UnlockVestedFunds st0 now).2.FeeDebt) := by
  refine ⟨?_, ?_, ?_⟩
  · intro hco
    unfold WithdrawBalance
    simp [not_lt.mpr hreq, hco]
  · intro hco het
    unfold WithdrawBalance
    simp [not_lt.mpr hreq, hco, List.isEmpty_iff, het]
  · intro r h
    obtain ⟨_, _, h3, h4, h5, h6, _⟩ := WithdrawBalance_ok_shape st0 balance caller owner
      amountRequested now r h
    exact ⟨h3, h4, by rw [h5], h6⟩

/-- C1: the balance-invariant epilogue run by the miner methods succeeds
exactly when balance ≥ pre_commit_deposits + initial_pledge + locked_funds
and otherwise aborts with the distinguished actor-specific code
ErrBalanceInvariantBroken = 1000 (no generic code has that value); every
successful WithdrawBalance ends in a state satisfying the inequality. -/
theorem C1_balance_invariant (st : MinerState) (balance : Int) :
    (balanceInvariantGate st balance = .ok () ↔
      st.PreCommitDeposits + st.InitialPledge + st.LockedFunds ≤ balance) ∧
    (balance < st.PreCommitDeposits + st.InitialPledge + st.LockedFunds →
      balanceInvariantGate st balance = .error .errBalanceInvariantBroken) ∧
    ExitCode.num .errBalanceInvariantBroken = 1000 ∧
    (∀ e : ExitCode, e ≠ .errBalanceInvariantBroken → ExitCode.num e < 1000) ∧
    (∀ (bal2 req now : Int) (caller owner : Nat) (r : WithdrawResult),
      WithdrawBalance st bal2 caller owner req now = .ok r →
      r.St.PreCommitDeposits + r.St.InitialPledge + r.St.LockedFunds ≤ r.Balance) := by
  refine ⟨?_, ?_, rfl, ?_, ?_⟩
  · unfold balanceInvariantGate CheckBalanceInvariants
    split_ifs with hc <;> simp_all
  · intro hlt
    unfold balanceInvariantGate CheckBalanceInvariants
    rw [if_neg (by simpa using not_le.mpr hlt)]
  · intro e he
    cases e <;> first | exact absurd rfl he | norm_num [ExitCode.num]
  · intro bal2 req now caller owner r h
    obtain ⟨_, _, _, _, _, _, hg⟩ := WithdrawBalance_ok_shape st bal2 caller owner req now r h
    simpa [CheckBalanceInvariants] using hg

/-- C3: a SubmitWindowedPoSt submission is accepted only when
ChainCommitEpoch lies in [current deadline's challenge epoch, current epoch):
with all other validations passing it aborts with ErrIllegalArgument when
ChainCommitEpoch is below the challenge epoch or at/after the current epoch,
and succeeds inside the interval; the current deadline is open both at the
first and at the last epoch of its challenge window, so submissions at both
boundary epochs are accepted. -/
theorem C3_submit_post_commit_window (env : SubmitEnv) (params : SubmitWindowedPoStParams) (pf : PoStProof)
    (h1 : params.Proofs = [pf])
    (h2 : pf.PoStType ∈ env.CanWPoStProofTypes)
    (h3 : params.Deadline < WPoStPeriodDeadlines)
    (h4 : params.ChainCommitRand.length ≤ RandomnessLength)
    (h5 : env.Caller ∈ env.ControlAddrs)
    (h6 : pf.PoStType = env.WindowPoStProofType)
    (h7 : pf.ProofBytes.length ≤ env.MaxProofSize * params.Partitions.length)
    (h8 : params.Partitions.length ≤ env.SubmissionPartitionLimit)
    (h9 : (stateDeadlineInfo env.ProvingPeriodStart env.CurrentDeadline env.CurrEpoch).IsOpen
      = true)
    (h10 : params.Deadline =
      (stateDeadlineInfo env.ProvingPeriodStart env.CurrentDeadline env.CurrEpoch).Index) :
    (params.ChainCommitEpoch <
        (stateDeadlineInfo env.ProvingPeriodStart env.CurrentDeadline env.CurrEpoch).Challenge ∨
      env.CurrEpoch ≤ params.ChainCommitEpoch →
      SubmitWindowedPoStValidate env params = .error .errIllegalArgument) ∧
    ((stateDeadlineInfo env.ProvingPeriodStart env.CurrentDeadline env.CurrEpoch).Challenge ≤
        params.ChainCommitEpoch →
      params.ChainCommitEpoch < env.CurrEpoch →
      env.TicketRand params.ChainCommitEpoch = params.ChainCommitRand →
      SubmitWindowedPoStValidate env params =
        .ok (stateDeadlineInfo env.ProvingPeriodStart env.CurrentDeadline env.CurrEpoch)) ∧
    (∀ d : DlInfo, d.CurrentEpoch = d.Open ∨ d.CurrentEpoch = d.Last → d.IsOpen = true) := by
  have n1 : ¬ (pf.PoStType ∉ env.CanWPoStProofTypes) := not_not_intro h2
  have n2 : ¬ (params.Deadline ≥ WPoStPeriodDeadlines) := not_le.mpr h3
  have n3 : ¬ (params.ChainCommitRand.length > RandomnessLength) := not_lt.mpr h4
  have n4 : ¬ (env.Caller ∉ env.ControlAddrs) := not_not_intro h5
  have n5 : ¬ (pf.PoStType ≠ env.WindowPoStProofType) := not_not_intro h6
  have n6 : ¬ (pf.ProofBytes.length > env.MaxProofSize * params.Partitions.length) := not_lt.mpr h7
  have n7 : ¬ (params.Partitions.length > env.SubmissionPartitionLimit) := not_lt.mpr h8
  have n8 : ¬ (¬ (stateDeadlineInfo env.ProvingPeriodStart env.CurrentDeadline
      env.CurrEpoch).IsOpen = true) := not_not_intro h9
  have n9 : ¬ (params.Deadline ≠ (stateDeadlineInfo env.ProvingPeriodStart env.CurrentDeadline
      env.CurrEpoch).Index) := not_not_intro h10
  refine ⟨?_, ?_, ?_⟩
  · intro hcc
    unfold SubmitWindowedPoStValidate
    rw [h1]
    dsimp only []
    rw [if_neg n1, if_neg n2, if_neg n3, if_neg n4, if_neg n5, if_neg n6, if_neg n7, if_neg n8,
      if_neg n9]
    rcases hcc with hlo | hhi
    · rw [if_pos hlo]
    · by_cases hch : params.ChainCommitEpoch <
          (stateDeadlineInfo env.ProvingPeriodStart env.CurrentDeadline env.CurrEpoch).Challenge
      · rw [if_pos hch]
      · rw [if_neg hch, if_pos hhi]
  · intro hlo hhi hrand
    unfold SubmitWindowedPoStValidate
    rw [h1]
    dsimp only []
    rw [if_neg n1, if_neg n2, if_neg n3, if_neg n4, if_neg n5, if_neg n6, if_neg n7, if_neg n8,
      if_neg n9, if_neg (not_lt.mpr hlo), if_neg (not_le.mpr hhi), if_neg (not_not_intro hrand)]
  · intro d hd
    unfold DlInfo.IsOpen DlInfo.Last DlInfo.Close DlInfo.Open at *
    rcases hd with hopen | hlast <;>
      simp only [decide_eq_true_eq] <;> unfold WPoStChallengeWindow at * <;> omega

/-- C4 (amended): in an accepted SubmitWindowedPoSt, when the submission
recovers no power the proof is not verified and is instead snapshotted with
its partitions for a later dispute (the outcome is the same whatever the
verification oracle would say); when power is recovered the proof is
verified immediately and verification failure aborts the invocation with
ErrIllegalArgument. -/
theorem C4_optimistic_acceptance (spower : Nat → PowerPair) (dl : DeadlineM) (decls : List PoStPartition)
    (proofs : List PoStProof) (verifyOk : Bool) (parts : List Partition) (res : PoStResultM)
    (hrec : recordProvenSectors spower dl.Partitions decls = .ok (parts, res))
    (hproven : (res.Sectors.diff res.IgnoredSectors).isEmpty = false) :
    (res.RecoveredPower.IsZero = true →
      SubmitWindowedPoStRecord spower dl decls proofs verifyOk =
        .ok { Partitions := parts
              OptimisticPoStSubmissions :=
                dl.OptimisticPoStSubmissions ++ [(res.Partitions, proofs)] }) ∧
    (res.RecoveredPower.IsZero = false →
      (verifyOk = true →
        SubmitWindowedPoStRecord spower dl decls proofs verifyOk =
          .ok { Partitions := parts
                OptimisticPoStSubmissions := dl.OptimisticPoStSubmissions }) ∧
      (verifyOk = false →
        SubmitWindowedPoStRecord spower dl decls proofs verifyOk =
          .error .errIllegalArgument)) := by
  unfold SubmitWindowedPoStRecord
  rw [hrec]
  dsimp only []
  rw [if_neg (by simp [hproven])]
  constructor
  · intro hz; rw [if_pos hz]
  · intro hz
    constructor
    · intro hv; rw [if_neg (by simp [hz]), if_pos hv]
    · intro hv; rw [if_neg (by simp [hz]), if_neg (by simp [hv])]

/-- C4 counterexample: a deadline with a declared recovery whose submission
skips the recovering sector recovers no power, so the proof is snapshotted
without any verification even though a recovery is declared and the
verification oracle would fail — refuting the claim that declared
recoveries force immediate verification. -/
theorem C4_optimistic_acceptance_counterexample :
    hasDeclaredRecoveries ⟨[⟨[1, 2], [1], [1], []⟩], []⟩ = true ∧
    SubmitWindowedPoStRecord (fun _ => ⟨1, 1⟩) ⟨[⟨[1, 2], [1], [1], []⟩], []⟩
        [⟨0, [1]⟩] [⟨7, []⟩] false =
      .ok ⟨[⟨[1, 2], [1], [], []⟩], [([0], [⟨7, []⟩])]⟩ := by
  exact ⟨by decide, by decide⟩

/-- C5: inside the dispute window, DisputeWindowedPoSt aborts with
ErrIllegalArgument when the snapshotted proof re-verifies (state unchanged);
when re-verification fails the disputed partitions' sectors become faults,
the penalty target applied equals the base invalid-PoSt penalty plus the
reward target, and the reporter is sent min(amount actually repaid toward
the penalty, reward target). -/
theorem C5_dispute_windowed_post (env : DisputeEnv) (st : MinerState) (balance : Int)
    (dlParts : List Partition) (disputedSectors : List Nat) (verifyOk : Bool)
    (paramsDeadline : Nat)
    (hidx : paramsDeadline < WPoStPeriodDeadlines)
    (havail : deadlineAvailableForOptimisticPoStDispute env.ProvingPeriodStart paramsDeadline
      env.CurrEpoch = true)
    (hpen : 0 ≤ env.PenaltyBase + env.RewardTarget) :
    (verifyOk = true →
      DisputeWindowedPoSt env st balance dlParts disputedSectors verifyOk paramsDeadline =
        .error .errIllegalArgument) ∧
    (verifyOk = false →
      ∀ r, DisputeWindowedPoSt env st balance dlParts disputedSectors verifyOk paramsDeadline
          = .ok r →
        r.Partitions = dlParts.map (fun p => recordFaultsPartition p disputedSectors) ∧
        r.PenaltyTarget = env.PenaltyBase + env.RewardTarget ∧
        r.ToReward = min
          ((RepayPartialDebtInPriorityOrder
              { st with FeeDebt := st.FeeDebt + (env.PenaltyBase + env.RewardTarget) }
              balance).1 +
            (RepayPartialDebtInPriorityOrder
              { st with FeeDebt := st.FeeDebt + (env.PenaltyBase + env.RewardTarget) }
              balance).2.1)
          env.RewardTarget ∧
        r.St = (RepayPartialDebtInPriorityOrder
            { st with FeeDebt := st.FeeDebt + (env.PenaltyBase + env.RewardTarget) }
            balance).2.2) := by
  unfold DisputeWindowedPoSt
  rw [if_neg (not_le.mpr hidx), if_neg (not_not_intro havail)]
  constructor
  · intro hv; rw [if_pos hv]
  · intro hv r h
    rw [if_neg (by simp [hv])] at h
    simp only [ApplyPenalty] at h
    rw [if_neg (not_lt.mpr hpen)] at h
    dsimp only [] at h
    rw [Except.ok.injEq] at h
    subst h
    exact ⟨rfl, rfl, rfl, rfl⟩

/-- C8: market CronTick processes exactly the scheduled-deal epochs in the
interval (last_cron, now] and sets last_cron to the current epoch, so
invoking CronTick twice at the same epoch with no intervening state change
leaves the state identical to invoking it once, whatever the per-deal
processing does. -/
theorem C8_cron_tick_idempotent {σ : Type} (step : Int → σ → Nat → Except ExitCode (σ × Option Int))
    (now : Int) (st st2 : MarketCronState σ) :
    (∀ i : Int, i ∈ epochsInRange st.LastCron now ↔ st.LastCron < i ∧ i ≤ now) ∧
    (CronTick step now st = .ok st2 →
      st2.LastCron = now ∧ CronTick step now st2 = .ok st2) := by
  constructor
  · intro i
    constructor
    · intro hm
      rcases List.mem_map.mp hm with ⟨k, hk, hEq⟩
      have hklt : k < (now - st.LastCron).toNat := List.mem_range.mp hk
      omega
    · rintro ⟨hgt, hle⟩
      refine List.mem_map.mpr
        ⟨(i - (st.LastCron + 1)).toNat, List.mem_range.mpr (by omega), by omega⟩
  · intro h
    have hlc : st2.LastCron = now := by
      unfold CronTick at h
      split at h
      · exact absurd h (by simp)
      · rw [Except.ok.injEq] at h; subst h; rfl
    refine ⟨hlc, ?_⟩
    obtain ⟨lc, dbe, aux⟩ := st2
    simp only at hlc
    subst hlc
    unfold CronTick epochsInRange
    rw [Int.sub_self]
    simp only [Int.toNat_zero, List.range_zero, List.map_nil, List.foldlM_nil]
    simp [pure, Except.pure, updatesFor, sortEpochs]

/-- The publish persistence fold assigns consecutive deal IDs from the
next-ID counter, appends exactly the given deals to the proposal table, and
accumulates the locked totals. -/
theorem publish_foldl_spec (ds : List DealP) (s : MarketPubState) (ids : List Nat) :
    (ds.foldl publishOneDeal (s, ids)).1.NextID = s.NextID + ds.length ∧
    (ds.foldl publishOneDeal (s, ids)).2 =
      ids ++ (List.range ds.length).map (fun k => s.NextID + k) ∧
    (ds.foldl publishOneDeal (s, ids)).1.Proposals =
      s.Proposals ++ (((List.range ds.length).map (fun k => s.NextID + k)).zip ds) ∧
    (ds.foldl publishOneDeal (s, ids)).1.TotalClientLocked =
      s.TotalClientLocked + (ds.map DealP.ClientLockup).sum ∧
    (ds.foldl publishOneDeal (s, ids)).1.TotalProviderLocked =
      s.TotalProviderLocked + (ds.map DealP.ProviderCollateral).sum := by
  induction ds generalizing s ids with
  | nil => simp
  | cons d rest ih =>
    simp only [List.foldl_cons]
    obtain ⟨h1, h2, h3, h4, h5⟩ := ih (publishOneDeal (s, ids) d).1 (publishOneDeal (s, ids) d).2
    have hs1 : (publishOneDeal (s, ids) d).1.NextID = s.NextID + 1 := rfl
    have hs2 : (publishOneDeal (s, ids) d).2 = ids ++ [s.NextID] := rfl
    have hs3 : (publishOneDeal (s, ids) d).1.Proposals = s.Proposals ++ [(s.NextID, d)] := rfl
    have hs4 : (publishOneDeal (s, ids) d).1.TotalClientLocked =
        s.TotalClientLocked + d.ClientLockup := rfl
    have hs5 : (publishOneDeal (s, ids) d).1.TotalProviderLocked =
        s.TotalProviderLocked + d.ProviderCollateral := rfl
    have hmap : (List.range (rest.length + 1)).map (fun k => s.NextID + k) =
        s.NextID :: (List.range rest.length).map (fun k => s.NextID + 1 + k) := by
      rw [List.range_succ_eq_map, List.map_cons, List.map_map]
      have hfun : ((fun k => s.NextID + k) ∘ Nat.succ) = (fun k => s.NextID + 1 + k) := by
        funext k
        simp [Function.comp, Nat.succ_eq_add_one]
        omega
      rw [hfun, Nat.add_zero]
    refine ⟨?_, ?_, ?_, ?_, ?_⟩
    · rw [h1, hs1, List.length_cons]; omega
    · rw [h2, hs2, hs1, List.length_cons, hmap, List.append_assoc]
      rfl
    · rw [h3, hs3, hs1, List.length_cons, hmap, List.zip_cons_cons, List.append_assoc]
      rfl
    · rw [h4, hs4, List.map_cons, List.sum_cons]; ring
    · rw [h5, hs5, List.map_cons, List.sum_cons]; ring

/-- C10: PublishStorageDeals drops invalid deals individually — on success
the returned ValidDeals bitfield is exactly the accepted input indices, the
assigned deal IDs are consecutive from the next-ID counter, and exactly the
accepted deals are persisted and their collateral locked — and it aborts
with ErrIllegalArgument precisely when every deal in the batch is invalid,
in which case nothing is persisted, locked or allocated (the abort happens
before the state transaction). -/
theorem C10_publish_storage_deals (check : Nat → List Nat → Bool) (deals : List DealP) (st : MarketPubState) :
    (PublishStorageDeals check deals st = .error .errIllegalArgument ↔
      collectValidIndices check deals.length = []) ∧
    (∀ ret st2, PublishStorageDeals check deals st = .ok (ret, st2) →
      ret.ValidDeals = collectValidIndices check deals.length ∧
      ret.IDs = (List.range ((collectValidIndices check deals.length).filterMap
          (fun i => deals.get? i)).length).map (fun k => st.NextID + k) ∧
      st2.NextID = st.NextID + ((collectValidIndices check deals.length).filterMap
          (fun i => deals.get? i)).length ∧
      st2.Proposals = st.Proposals ++ ret.IDs.zip ((collectValidIndices check
          deals.length).filterMap (fun i => deals.get? i)) ∧
      st2.TotalClientLocked = st.TotalClientLocked + (((collectValidIndices check
          deals.length).filterMap (fun i => deals.get? i)).map DealP.ClientLockup).sum ∧
      st2.TotalProviderLocked = st.TotalProviderLocked + (((collectValidIndices check
          deals.length).filterMap (fun i => deals.get? i)).map DealP.ProviderCollateral).sum) := by
  constructor
  · unfold PublishStorageDeals
    by_cases hv : (collectValidIndices check deals.length).isEmpty
    · rw [if_pos hv]
      simp [List.isEmpty_iff.mp hv]
    · rw [if_neg hv]
      simp only [List.isEmpty_iff] at hv
      simp [hv]
  · intro ret st2 h
    unfold PublishStorageDeals at h
    by_cases hv : (collectValidIndices check deals.length).isEmpty
    · rw [if_pos hv] at h; exact absurd h (by simp)
    · rw [if_neg hv] at h
      dsimp only [] at h
      rw [Except.ok.injEq, Prod.mk.injEq] at h
      obtain ⟨hret, hst⟩ := h
      obtain ⟨f1, f2, f3, f4, f5⟩ := publish_foldl_spec
        ((collectValidIndices check deals.length).filterMap (fun i => deals.get? i)) st []
      subst hret hst
      refine ⟨rfl, ?_, f1, ?_, f4, f5⟩
      · simpa using f2
      · rw [f3]
        have f2x : (List.foldl publishOneDeal (st, ([] : List Nat))
            ((collectValidIndices check deals.length).filterMap (fun i => deals.get? i))).2 =
            (List.range ((collectValidIndices check deals.length).filterMap
              (fun i => deals.get? i)).length).map (fun k => st.NextID + k) := by
          simpa using f2
        rw [f2x]

/-- C7 (amended): PreCommitSectorBatch and DeclareFaultsRecovered abort with
ErrForbidden exactly while the consensus fault is active, that is while the
current epoch does not exceed ConsensusFaultElapsed — the gate also fires
when ConsensusFaultElapsed equals the current epoch, not only when it is
strictly greater. -/
theorem C7_consensus_fault_gate (st : MinerState) (balance aggregateFee : Int) (batchSize : Nat)
    (caller : Nat) (controls : List Nat) (cfInfo : MinerInfoCF) (curr : Int)
    (declCount aP aS dMax pMax sMax : Nat)
    (hfee : 0 ≤ aggregateFee)
    (hrepay : st.FeeDebt + aggregateFee ≤ GetUnlockedBalance st balance)
    (hcaller : caller ∈ controls)
    (hd : declCount ≤ dMax) (hp : aP ≤ pMax) (hs : aS ≤ sMax) :
    (PreCommitSectorBatchPrologue st balance batchSize aggregateFee caller controls cfInfo curr
        = .error .errForbidden ↔ curr ≤ cfInfo.ConsensusFaultElapsed) ∧
    (DeclareFaultsRecoveredPrologue st balance declCount aP aS dMax pMax sMax caller controls
        cfInfo curr = .error .errForbidden ↔ curr ≤ cfInfo.ConsensusFaultElapsed) ∧
    (ConsensusFaultActive cfInfo curr = true ↔ curr ≤ cfInfo.ConsensusFaultElapsed) := by
  unfold PreCommitSectorBatchPrologue DeclareFaultsRecoveredPrologue ApplyPenalty
    RepayDebtsOrAbort ConsensusFaultActive GetUnlockedBalance
  simp only [GetUnlockedBalance] at hrepay
  refine ⟨?_, ?_, by simp⟩
  · by_cases hb : batchSize > 1 <;>
      simp [hb, bind, Except.bind, hcaller, not_lt.mpr hfee, ConsensusFaultActive] <;>
      split_ifs with h1 h2 <;> simp_all <;> omega
  · simp [hcaller, not_lt.mpr hfee, ConsensusFaultActive, not_lt.mpr hd]
    split_ifs with h1 h2 h3 <;> simp_all <;> omega

/-- C7 counterexample: with ConsensusFaultElapsed equal to the current epoch
(so not strictly greater), pre-commit and recovery are nevertheless forbidden
with ErrForbidden — refuting the claim that the restriction does not apply
when ConsensusFaultElapsed is not greater than the current epoch. -/
theorem C7_consensus_fault_gate_counterexample :
    ¬ ((0 : Int) > 0) ∧
    PreCommitSectorBatchPrologue ⟨0, 0, [], 0, 0, []⟩ 0 1 0 1 [1] ⟨0⟩ 0 =
      .error .errForbidden ∧
    DeclareFaultsRecoveredPrologue ⟨0, 0, [], 0, 0, []⟩ 0 0 0 0 1 1 1 1 [1] ⟨0⟩ 0 =
      .error .errForbidden :=
  ⟨by decide, by rfl, by rfl⟩

/-- C7 witness: the gate evaluated at an active consensus fault. -/
theorem C7_consensus_fault_gate_witness :
    PreCommitSectorBatchPrologue ⟨0, 0, [], 0, 0, []⟩ 10 1 0 1 [1] ⟨5⟩ 3 =
      .error .errForbidden :=
  (C7_consensus_fault_gate ⟨0, 0, [], 0, 0, []⟩ 10 0 1 1 [1] ⟨5⟩ 3 0 0 0 1 1 1 (by decide)
    (by decide) (by decide) (by decide) (by decide) (by decide)).1.mpr (by decide)

/-- C6 witness: concrete pre-commits at the randomness boundary — seal
randomness one epoch old is accepted, seal randomness at the current epoch
is rejected. -/
theorem C6_precommit_seal_rand_epoch_witness :
    validatePreCommitSector ⟨1000, [3], fun _ => some 10000, fun _ => some 5000000⟩
      ⟨3, 1, true, true, 999, [], 600000, false⟩ = .ok () ∧
    validatePreCommitSector ⟨1000, [3], fun _ => some 10000, fun _ => some 5000000⟩
      ⟨3, 1, true, true, 1000, [], 600000, false⟩ = .error .errIllegalArgument :=
  ⟨(C6_precommit_seal_rand_epoch ⟨1000, [3], fun _ => some 10000, fun _ => some 5000000⟩
      ⟨3, 1, true, true, 999, [], 600000, false⟩ (by decide) (by decide) rfl rfl (by decide)
      rfl).2.2.1 rfl,
   (C6_precommit_seal_rand_epoch ⟨1000, [3], fun _ => some 10000, fun _ => some 5000000⟩
      ⟨3, 1, true, true, 1000, [], 600000, false⟩ (by decide) (by decide) rfl rfl (by decide)
      rfl).2.1 rfl⟩

/-- C9 counterexample: the assigned processing epoch differs from
quantize-up(start) + offset and from quantize-down(start) + offset at
concrete inputs, refuting the fixed-formula reading of the claim under
either direction of the quantization. -/
theorem C9_processing_epoch_counterexample :
    GenRandNextEpoch 2881 5 = 2885 ∧
    quantizeUp DealUpdatesInterval 2881 + ((5 % DealUpdatesInterval.toNat : Nat) : Int) = 5765 ∧
    GenRandNextEpoch 2881 5 ≠
      quantizeUp DealUpdatesInterval 2881 + ((5 % DealUpdatesInterval.toNat : Nat) : Int) ∧
    GenRandNextEpoch 1 0 = 2880 ∧
    quantizeDown DealUpdatesInterval 1 + ((0 % DealUpdatesInterval.toNat : Nat) : Int) = 0 ∧
    GenRandNextEpoch 1 0 ≠
      quantizeDown DealUpdatesInterval 1 + ((0 % DealUpdatesInterval.toNat : Nat) : Int) := by
  refine ⟨by decide, by decide, by decide, by decide, by decide, by decide⟩

/-- C2 witness: a pending early termination forbids withdrawal; a concrete
successful withdrawal sends min(available, requested) to the owner. -/
theorem C2_withdraw_balance_witness :
    WithdrawBalance ⟨0, 0, [], 0, 0, [3]⟩ 5 1 1 2 0 = .error .errForbidden ∧
    WithdrawBalance ⟨2, 1, [⟨5, 1⟩], 0, 3, []⟩ 10 7 7 2 0 =
      .ok ⟨2, 7, ⟨2, 1, [⟨5, 1⟩], 0, 3, []⟩, 8⟩ ∧
    (2 : Int) =
      min (GetAvailableBalance (UnlockVestedFunds ⟨2, 1, [⟨5, 1⟩], 0, 3, []⟩ 0).2 10) 2 :=
  ⟨(C2_withdraw_balance ⟨0, 0, [], 0, 0, [3]⟩ 5 1 1 2 0 (by decide)).2.1 rfl (by decide),
   by decide,
   ((C2_withdraw_balance ⟨2, 1, [⟨5, 1⟩], 0, 3, []⟩ 10 7 7 2 0 (by decide)).2.2
     ⟨2, 7, ⟨2, 1, [⟨5, 1⟩], 0, 3, []⟩, 8⟩ (by decide)).1⟩

/-- C1 witness: the gate rejects a concrete violating balance with the
distinguished code, and a concrete successful withdrawal satisfies the
invariant. -/
theorem C1_balance_invariant_witness :
    balanceInvariantGate ⟨5, 0, [], 0, 0, []⟩ 4 = .error .errBalanceInvariantBroken ∧
    (2 : Int) + 3 + 1 ≤ (8 : Int) :=
  ⟨(C1_balance_invariant ⟨5, 0, [], 0, 0, []⟩ 4).2.1 (by decide),
   (C1_balance_invariant ⟨2, 1, [⟨5, 1⟩], 0, 3, []⟩ 0).2.2.2.2 10 2 0 7 7
     ⟨2, 7, ⟨2, 1, [⟨5, 1⟩], 0, 3, []⟩, 8⟩ (by decide)⟩

/-- C3 witness: submissions at the first and at the last epoch of the open
challenge window (period start 100, deadline 2: epochs 220 and 279), with
commit epoch 210 inside [200, now), are both accepted. -/
theorem C3_submit_post_commit_window_witness :
    SubmitWindowedPoStValidate
        ⟨220, 100, 2, 1, [1], 7, [7], 0, 0, fun _ => []⟩ ⟨2, [], [⟨7, []⟩], 210, []⟩ =
      .ok ⟨220, 100, 2⟩ ∧
    SubmitWindowedPoStValidate
        ⟨279, 100, 2, 1, [1], 7, [7], 0, 0, fun _ => []⟩ ⟨2, [], [⟨7, []⟩], 210, []⟩ =
      .ok ⟨279, 100, 2⟩ ∧
    (⟨220, 100, 2⟩ : DlInfo).CurrentEpoch = (⟨220, 100, 2⟩ : DlInfo).Open ∧
    (⟨279, 100, 2⟩ : DlInfo).CurrentEpoch = (⟨279, 100, 2⟩ : DlInfo).Last :=
  ⟨(C3_submit_post_commit_window ⟨220, 100, 2, 1, [1], 7, [7], 0, 0, fun _ => []⟩
      ⟨2, [], [⟨7, []⟩], 210, []⟩ ⟨7, []⟩ rfl (by decide) (by decide) (by decide) (by decide)
      rfl (by decide) (by decide) (by decide) (by decide)).2.1 (by decide) (by decide) rfl,
   (C3_submit_post_commit_window ⟨279, 100, 2, 1, [1], 7, [7], 0, 0, fun _ => []⟩
      ⟨2, [], [⟨7, []⟩], 210, []⟩ ⟨7, []⟩ rfl (by decide) (by decide) (by decide) (by decide)
      rfl (by decide) (by decide) (by decide) (by decide)).2.1 (by decide) (by decide) rfl,
   by decide, by decide⟩

/-- C4 witness: a submission recovering power is verified and aborts on
verification failure; a submission recovering no power is snapshotted. -/
theorem C4_optimistic_acceptance_witness :
    SubmitWindowedPoStRecord (fun _ => ⟨1, 1⟩) ⟨[⟨[1, 2], [1], [1], []⟩], []⟩ [⟨0, []⟩]
        [⟨7, []⟩] false = .error .errIllegalArgument ∧
    SubmitWindowedPoStRecord (fun _ => ⟨1, 1⟩) ⟨[⟨[1, 2], [1], [], []⟩], []⟩ [⟨0, []⟩]
        [⟨7, []⟩] true =
      .ok ⟨[⟨[1, 2], [1], [], []⟩], [([0], [⟨7, []⟩])]⟩ :=
  ⟨((C4_optimistic_acceptance (fun _ => ⟨1, 1⟩) ⟨[⟨[1, 2], [1], [1], []⟩], []⟩ [⟨0, []⟩]
      [⟨7, []⟩] false [⟨[1, 2], [], [], []⟩] ⟨[0], [1, 2], [], ⟨1, 1⟩⟩ (by decide)
      (by decide)).2 (by decide)).2 rfl,
   (C4_optimistic_acceptance (fun _ => ⟨1, 1⟩) ⟨[⟨[1, 2], [1], [], []⟩], []⟩ [⟨0, []⟩]
      [⟨7, []⟩] true [⟨[1, 2], [1], [], []⟩] ⟨[0], [1, 2], [1], ⟨0, 0⟩⟩ (by decide)
      (by decide)).1 (by decide)⟩

/-- C5 witness: inside the dispute window a dispute of a proof that
re-verifies aborts with ErrIllegalArgument. -/
theorem C5_dispute_windowed_post_witness :
    DisputeWindowedPoSt ⟨60, 0, 1, 5, 7⟩ ⟨0, 0, [], 0, 0, []⟩ 20 [] [] true 0 =
      .error .errIllegalArgument :=
  (C5_dispute_windowed_post ⟨60, 0, 1, 5, 7⟩ ⟨0, 0, [], 0, 0, []⟩ 20 [] [] true 0
    (by decide) (by decide) (by decide)).1 rfl

/-- C8 witness: a concrete CronTick at epoch 1 processed once and then again
at the same epoch returns the identical state. -/
theorem C8_cron_tick_idempotent_witness :
    CronTick (fun _ a _ => .ok (a, none)) 1 (⟨1, [], ()⟩ : MarketCronState Unit) =
      .ok ⟨1, [], ()⟩ :=
  ((C8_cron_tick_idempotent (fun _ a _ => .ok (a, none)) 1 ⟨0, [(1, [5])], ()⟩
      ⟨1, [], ()⟩).2 (by rfl)).2

/-- C10 witness: an all-invalid batch aborts with ErrIllegalArgument, and a
batch with one valid deal returns exactly that input index as valid. -/
theorem C10_publish_storage_deals_witness :
    PublishStorageDeals (fun _ _ => false) [⟨5, 10, 20, 99⟩] ⟨7, [], [], [], 0, 0⟩ =
      .error .errIllegalArgument ∧
    (PublishStorageDealsRet.mk [7] [1]).ValidDeals =
      collectValidIndices (fun i _ => i == 1) 2 :=
  ⟨(C10_publish_storage_deals (fun _ _ => false) [⟨5, 10, 20, 99⟩]
      ⟨7, [], [], [], 0, 0⟩).1.mpr (by decide),
   ((C10_publish_storage_deals (fun i _ => i == 1) [⟨4, 1, 2, 50⟩, ⟨5, 10, 20, 99⟩]
      ⟨7, [], [], [], 0, 0⟩).2 ⟨[7], [1]⟩
      ⟨8, [(7, ⟨5, 10, 20, 99⟩)], [99], [(7, 7)], 10, 20⟩ (by decide)).1⟩
